import Mathlib

/-!
Verification of the minimal reverse-mode automatic-differentiation engine
specified for this repository.  The repository itself consists of two
tutorial notebooks that call into a pre-existing autograd library; the
engine they describe is therefore modelled here from the specification
(data model, graph builder, backward engine, freezing, the plain
gradient-descent update) and the stated properties are proved about that
model.  Tensors are modelled as lists of rationals (exact arithmetic,
elementwise operations), and the computation graph as an arena of Value
nodes indexed by integer handles, with each derived node carrying its
producing Operation Record inline.
-/

namespace Autograd

/-- Modelled from the spec: the operator kinds exercised by the notebooks
(elementwise addition, subtraction, multiplication, raising to a constant
natural power, and scaling by a constant rational). -/
inductive Op
  | add
  | sub
  | mul
  | powN (n : ℕ)
  | smul (c : ℚ)
deriving DecidableEq

/-- Modelled from the spec: a Value holds data, an accumulated gradient
(absent initially), a `requires_grad` flag, and an ownership link to the
single Operation Record that produced it (operator kind plus ordered input
handles), absent for leaves. -/
structure Node where
  data : List ℚ
  grad : Option (List ℚ)
  requires_grad : Bool
  producer : Option (Op × List ℕ)
deriving DecidableEq

/-- Placeholder node used to totalize list indexing; never reachable for
in-range handles. -/
def defaultNode : Node :=
  { data := [], grad := none, requires_grad := false, producer := none }

/-- Modelled from the spec: the computation graph as an explicit arena of
Values indexed by integer handles; `consumed` records that a backward pass
has already run on this graph without retention requested. -/
structure Graph where
  nodes : List Node
  consumed : Bool
deriving DecidableEq

def Graph.empty : Graph := { nodes := [], consumed := false }

/-- Modelled from the spec: the error taxonomy of the backward engine. -/
inductive EngineError
  | shapeError
  | noGradientPathError
  | reuseError
  | cycleError
deriving DecidableEq

/-- The node at handle `i` (the placeholder for out-of-range handles). -/
def nodeAt (g : Graph) (i : ℕ) : Node := (g.nodes[i]?).getD defaultNode

/-- Data of the node at handle `i`. -/
def dataOf (g : Graph) (i : ℕ) : List ℚ := (nodeAt g i).data

/-- Stored gradient of the node at handle `i`. -/
def gradOf (g : Graph) (i : ℕ) : Option (List ℚ) := (nodeAt g i).grad

/-- `requires_grad` flag of the node at handle `i`. -/
def rgOf (g : Graph) (i : ℕ) : Bool := (nodeAt g i).requires_grad

/-- Producing Operation Record of the node at handle `i`. -/
def producerOf (g : Graph) (i : ℕ) : Option (Op × List ℕ) := (nodeAt g i).producer

/-- Modelled from the spec: forward evaluation of one operator on the data
of its inputs; `none` signals an element-count mismatch between the
operator's inputs (reported as ShapeError by the builder). -/
def evalOp : Op → List (List ℚ) → Option (List ℚ)
  | Op.add, [x, y] =>
      if x.length = y.length then some (List.zipWith (fun u v => u + v) x y) else none
  | Op.sub, [x, y] =>
      if x.length = y.length then some (List.zipWith (fun u v => u - v) x y) else none
  | Op.mul, [x, y] =>
      if x.length = y.length then some (List.zipWith (fun u v => u * v) x y) else none
  | Op.powN n, [x] => some (x.map (fun u => u ^ n))
  | Op.smul c, [x] => some (x.map (fun u => c * u))
  | _, _ => none

/-- Modelled from the spec: `create(data, requires_grad)` returns a leaf
Value with no producing record, appended to the arena; the new handle is
returned alongside the grown graph. -/
def Graph.leaf (g : Graph) (d : List ℚ) (rg : Bool) : Graph × ℕ :=
  ({ nodes := g.nodes ++ [{ data := d, grad := none, requires_grad := rg, producer := none }],
     consumed := g.consumed }, g.nodes.length)

/-- Modelled from the spec: a freshly constructed parameter Value (as made
by a new `nn.Linear` layer) is unfrozen by default, i.e. a leaf with
`requires_grad = true`. -/
def Graph.mkParam (g : Graph) (d : List ℚ) : Graph × ℕ := g.leaf d true

/-- Modelled from the spec: the graph builder.  Applying an operator
computes the result data, sets `requires_grad` on the result iff some input
requires gradients, and allocates an Operation Record (stored as the
result's producer) exactly when the result requires gradients; when no
input requires gradients the operation is excluded from the graph.  Handles
must reference existing Values (references in the source implementation are
valid by construction; a dangling handle is rejected), and an element-count
mismatch between the inputs is a ShapeError. -/
def Graph.applyOp (g : Graph) (op : Op) (inputs : List ℕ) : Except EngineError (Graph × ℕ) :=
  if inputs.all (fun i => i < g.nodes.length) then
    match evalOp op (inputs.map (fun i => dataOf g i)) with
    | none => Except.error EngineError.shapeError
    | some d =>
      Except.ok
        ({ nodes := g.nodes ++
             [{ data := d, grad := none,
                requires_grad := inputs.any (fun i => rgOf g i),
                producer := if inputs.any (fun i => rgOf g i) then some (op, inputs)
                            else none }],
           consumed := g.consumed }, g.nodes.length)
  else Except.error EngineError.shapeError

/-- Modelled from the spec: toggling `requires_grad` on an existing Value,
leaving its data, stored gradient and producing record untouched. -/
def Graph.setRequiresGrad (g : Graph) (i : ℕ) (b : Bool) : Graph :=
  { nodes := (List.range g.nodes.length).map (fun j =>
      let nd := (g.nodes[j]?).getD defaultNode
      if j = i then { nd with requires_grad := b } else nd),
    consumed := g.consumed }

/-- Elementwise sum of two gradient vectors. -/
def addVec (x y : List ℚ) : List ℚ := List.zipWith (fun u v => u + v) x y

/-- The zero gradient of the same shape as `x`. -/
def zerosLike (x : List ℚ) : List ℚ := x.map (fun _ => (0 : ℚ))

/-- Modelled from the spec: the local gradient rule of each operator,
mapping the output's incoming gradient to the ordered list of the inputs'
gradient contributions (for `c = a*b`: b·g and a·g; for `c = a^n`:
n·a^(n-1)·g; and so on). -/
def localGrads : Op → List (List ℚ) → List ℚ → List (List ℚ)
  | Op.add, [_, _], gout => [gout, gout]
  | Op.sub, [_, _], gout => [gout, gout.map (fun u => -u)]
  | Op.mul, [x, y], gout =>
      [List.zipWith (fun gv v => gv * v) gout y, List.zipWith (fun gv u => gv * u) gout x]
  | Op.powN n, [x], gout =>
      [List.zipWith (fun gv u => gv * ((n : ℚ) * u ^ (n - 1))) gout x]
  | Op.smul c, [_], gout => [gout.map (fun gv => c * gv)]
  | _, _, _ => []

/-- Modelled from the spec: one propagation step of the backward engine.
If the node at handle `i` has a producing Operation Record, each input's
local gradient contribution (computed from the record's rule applied to the
node's accumulated incoming gradient) is added — not overwritten — into
that input's incoming-gradient accumulator. -/
def accumInputs (g : Graph) (acc : List (List ℚ)) (i : ℕ) : List (List ℚ) :=
  match producerOf g i with
  | none => acc
  | some (op, inputs) =>
    let gout := (acc[i]?).getD []
    let contribs := localGrads op (inputs.map (fun j => dataOf g j)) gout
    (List.zip inputs contribs).foldl
      (fun a p => a.set p.1 (addVec ((a[p.1]?).getD []) p.2)) acc

/-- Modelled from the spec: the incoming-gradient accumulators after a full
backward propagation.  The root's accumulator is initialized to the seed
and every other accumulator to zero; nodes are then processed in reverse
construction order, a reverse topological order of the arena since every
record's inputs are created strictly before the record. -/
def backwardAcc (g : Graph) (root : ℕ) (seed : List ℚ) : List (List ℚ) :=
  ((List.range g.nodes.length).reverse).foldl (accumInputs g)
    ((g.nodes.map (fun nd => zerosLike nd.data)).set root seed)

/-- Modelled from the spec: the defensive acyclicity check performed during
topological ordering — every Operation Record's inputs must have been
created strictly before the record itself. -/
def Graph.acyclic (g : Graph) : Bool :=
  (List.range g.nodes.length).all (fun i =>
    match producerOf g i with
    | none => true
    | some p => p.2.all (fun j => j < i))

/-- Modelled from the spec: after propagation, for leaf Values (no
producing record) with `requires_grad = true`, the accumulated incoming
gradient is added into their stored gradient (gradients accumulate unless
explicitly zeroed); all other nodes keep their stored gradient. -/
def storeGrads (g : Graph) (acc : List (List ℚ)) : List Node :=
  (List.range g.nodes.length).map (fun i =>
    let nd := (g.nodes[i]?).getD defaultNode
    if nd.requires_grad && nd.producer.isNone then
      { nd with grad := some (addVec ((nd.grad).getD (zerosLike nd.data)) ((acc[i]?).getD [])) }
    else nd)

/-- The propagation phase of `backward` once the seed has been resolved:
the defensive cycle check, then accumulation and storing of gradients.
Without retention the resulting graph is marked consumed. -/
def backwardRun (g : Graph) (root : ℕ) (seed : List ℚ) (retain : Bool) :
    Except EngineError Graph :=
  if g.acyclic then
    Except.ok { nodes := storeGrads g (backwardAcc g root seed), consumed := !retain }
  else Except.error EngineError.cycleError

/-- Modelled from the spec: `backward(root, seed)`.  A consumed graph is
refused with ReuseError; a root that requires no gradients with
NoGradientPathError; the seed defaults to `[1]` for a true scalar root and
must match the root's shape otherwise (ShapeError). -/
def Graph.backward (g : Graph) (root : ℕ) (seed? : Option (List ℚ)) (retain : Bool) :
    Except EngineError Graph :=
  if g.consumed then Except.error EngineError.reuseError
  else if !(rgOf g root) then Except.error EngineError.noGradientPathError
  else
    match seed? with
    | none =>
      if (dataOf g root).length = 1 then backwardRun g root [1] retain
      else Except.error EngineError.shapeError
    | some s =>
      if s.length = (dataOf g root).length then backwardRun g root s retain
      else Except.error EngineError.shapeError

/-- Modelled from the spec: freezing every parameter of a model
(`for param in model.parameters(): param.requires_grad = False`). -/
def Graph.freezeAll (g : Graph) : Graph :=
  { nodes := g.nodes.map (fun nd => { nd with requires_grad := false }),
    consumed := g.consumed }

/-- Modelled from the spec: constructing the parameters of a replacement
layer, one fresh parameter Value per data vector. -/
def Graph.addParams (g : Graph) (ds : List (List ℚ)) : Graph :=
  ds.foldl (fun h d => (h.mkParam d).1) g

/-- Modelled from the spec: the plain gradient-descent update
(`f.data.sub_(f.grad.data * learning_rate)` over the parameters): each
node holding a gradient has its data replaced by
`data - learning_rate * gradient` elementwise; nothing else changes. -/
def Graph.sgdStep (g : Graph) (lr : ℚ) : Graph :=
  { nodes := g.nodes.map (fun nd =>
      match nd.grad with
      | some gv => { nd with data := List.zipWith (fun d u => d - lr * u) nd.data gv }
      | none => nd),
    consumed := g.consumed }

/-- Graphs producible by the engine's public constructors. -/
inductive Built : Graph → Prop
  | empty : Built Graph.empty
  | leaf (g : Graph) (d : List ℚ) (rg : Bool) : Built g → Built (g.leaf d rg).1
  | op (g g' : Graph) (op : Op) (inputs : List ℕ) (idx : ℕ) :
      Built g → g.applyOp op inputs = Except.ok (g', idx) → Built g'
  | setRG (g : Graph) (i : ℕ) (b : Bool) : Built g → Built (g.setRequiresGrad i b)
  | bwd (g g' : Graph) (root : ℕ) (s : Option (List ℚ)) (rt : Bool) :
      Built g → g.backward root s rt = Except.ok g' → Built g'
  | param (g : Graph) (d : List ℚ) : Built g → Built (g.mkParam d).1
  | freeze (g : Graph) : Built g → Built g.freezeAll
  | params (g : Graph) (ds : List (List ℚ)) : Built g → Built (g.addParams ds)
  | sgd (g : Graph) (lr : ℚ) : Built g → Built (g.sgdStep lr)

/-- The notebook's running example: leaves `a` and `b` (both requiring
gradients), `Q = 3·a³ − b²`, then `Q.backward(gradient=[1,1])`. -/
def buildQ (a0 a1 b0 b1 : ℚ) : Except EngineError Graph :=
  let p0 := Graph.empty.leaf [a0, a1] true
  let p1 := (p0.1).leaf [b0, b1] true
  match (p1.1).applyOp (Op.powN 3) [p0.2] with
  | Except.error e => Except.error e
  | Except.ok p2 =>
    match (p2.1).applyOp (Op.smul 3) [p2.2] with
    | Except.error e => Except.error e
    | Except.ok p3 =>
      match (p3.1).applyOp (Op.powN 2) [p1.2] with
      | Except.error e => Except.error e
      | Except.ok p4 =>
        match (p4.1).applyOp Op.sub [p3.2, p4.2] with
        | Except.error e => Except.error e
        | Except.ok p5 => (p5.1).backward p5.2 (some [1, 1]) false

/-- The spec's summation-law test: a scalar leaf `a` feeding two downstream
operators, `c = a + a*a`, then `c.backward()`. -/
def buildDouble (x : ℚ) : Except EngineError Graph :=
  let p0 := Graph.empty.leaf [x] true
  match (p0.1).applyOp Op.mul [p0.2, p0.2] with
  | Except.error e => Except.error e
  | Except.ok p1 =>
    match (p1.1).applyOp Op.add [p0.2, p1.2] with
    | Except.error e => Except.error e
    | Except.ok p2 => (p2.1).backward p2.2 none false

/-- The spec's freezing scenario: a leaf `w` frozen after creation, an
unfrozen sibling leaf `u`, the product `w*u`, then backward on the product. -/
def buildFrozen (w u : ℚ) : Except EngineError Graph :=
  let p0 := Graph.empty.leaf [w] true
  let gf := (p0.1).setRequiresGrad p0.2 false
  let p1 := gf.leaf [u] true
  match (p1.1).applyOp Op.mul [p0.2, p1.2] with
  | Except.error e => Except.error e
  | Except.ok p2 => (p2.1).backward p2.2 none false

/-- The construction invariant: every Operation Record's inputs were created
strictly before the record itself. -/
def GraphWF (g : Graph) : Prop :=
  ∀ (i : ℕ) (op : Op) (inputs : List ℕ),
    producerOf g i = some (op, inputs) → ∀ j ∈ inputs, j < i

/-! ### Access lemmas for the arena -/

theorem nodeAt_out (g : Graph) (i : ℕ) (h : ¬ i < g.nodes.length) : nodeAt g i = defaultNode := by
  unfold nodeAt
  rw [List.getElem?_eq_none (by omega)]
  rfl

theorem nodeAt_leaf (g : Graph) (d : List ℚ) (rg : Bool) (i : ℕ) :
    nodeAt (g.leaf d rg).1 i =
      if i < g.nodes.length then nodeAt g i
      else if i = g.nodes.length then
        { data := d, grad := none, requires_grad := rg, producer := none }
      else defaultNode := by
  unfold nodeAt Graph.leaf
  by_cases h1 : i < g.nodes.length
  · simp only [h1, if_true]
    rw [List.getElem?_append]
    simp [h1]
  · simp only [h1, if_false]
    by_cases h2 : i = g.nodes.length
    · subst h2
      rw [List.getElem?_concat_length]
      simp
    · rw [List.getElem?_eq_none (by simp; omega)]
      simp [h2]

theorem applyOp_ok (g : Graph) (op : Op) (inputs : List ℕ) (g' : Graph) (idx : ℕ)
    (h : g.applyOp op inputs = Except.ok (g', idx)) :
    idx = g.nodes.length ∧ (∀ i ∈ inputs, i < g.nodes.length) ∧
    ∃ d : List ℚ,
      evalOp op (inputs.map (fun i => dataOf g i)) = some d ∧
      g'.nodes = g.nodes ++
        [{ data := d, grad := none,
           requires_grad := inputs.any (fun i => rgOf g i),
           producer := if inputs.any (fun i => rgOf g i) then some (op, inputs) else none }] ∧
      g'.consumed = g.consumed := by
  unfold Graph.applyOp at h
  split at h
  case isTrue hall =>
    split at h
    case h_1 => exact absurd h (by simp)
    case h_2 d hd =>
      simp only [Except.ok.injEq, Prod.mk.injEq] at h
      obtain ⟨hg, hidx⟩ := h
      refine ⟨hidx.symm, ?_, d, hd, ?_, ?_⟩
      · intro i hi
        have := List.all_eq_true.mp hall i hi
        simpa using this
      · rw [← hg]
      · rw [← hg]
  case isFalse => exact absurd h (by simp)

theorem leaf_snd (g : Graph) (d : List ℚ) (rg : Bool) : (g.leaf d rg).2 = g.nodes.length := rfl

theorem leaf_length (g : Graph) (d : List ℚ) (rg : Bool) :
    (g.leaf d rg).1.nodes.length = g.nodes.length + 1 := by
  unfold Graph.leaf
  simp

theorem nodeAt_lt (g : Graph) (i : ℕ) (h : i < g.nodes.length) :
    g.nodes[i]? = some (nodeAt g i) := by
  unfold nodeAt
  rw [List.getElem?_eq_getElem h]
  simp

theorem length_setRequiresGrad (g : Graph) (i : ℕ) (b : Bool) :
    (g.setRequiresGrad i b).nodes.length = g.nodes.length := by
  unfold Graph.setRequiresGrad
  simp

theorem nodeAt_setRequiresGrad (g : Graph) (i : ℕ) (b : Bool) (j : ℕ) :
    nodeAt (g.setRequiresGrad i b) j =
      if j < g.nodes.length then
        (if j = i then { nodeAt g j with requires_grad := b } else nodeAt g j)
      else defaultNode := by
  by_cases h1 : j < g.nodes.length
  · unfold nodeAt Graph.setRequiresGrad
    simp only [h1, if_true]
    rw [List.getElem?_map, List.getElem?_range h1]
    rfl
  · rw [nodeAt_out _ _ (by rw [length_setRequiresGrad]; exact h1)]
    simp [h1]

theorem length_storeGrads (g : Graph) (acc : List (List ℚ)) :
    (storeGrads g acc).length = g.nodes.length := by
  unfold storeGrads
  simp

theorem getElem_storeGrads (g : Graph) (acc : List (List ℚ)) (j : ℕ) :
    (storeGrads g acc)[j]? =
      if j < g.nodes.length then
        some (if (nodeAt g j).requires_grad && (nodeAt g j).producer.isNone then
          { nodeAt g j with
            grad := some (addVec (((nodeAt g j).grad).getD (zerosLike (nodeAt g j).data))
              ((acc[j]?).getD [])) }
        else nodeAt g j)
      else none := by
  unfold storeGrads
  by_cases h1 : j < g.nodes.length
  · rw [List.getElem?_map, List.getElem?_range h1]
    simp only [h1, if_true]
    rfl
  · rw [List.getElem?_eq_none (by simp; omega)]
    simp [h1]

theorem backwardRun_ok (g : Graph) (root : ℕ) (s : List ℚ) (rt : Bool) (g' : Graph)
    (h : backwardRun g root s rt = Except.ok g') :
    g.acyclic = true ∧
    g' = { nodes := storeGrads g (backwardAcc g root s), consumed := !rt } := by
  unfold backwardRun at h
  split at h
  case isTrue hc =>
    simp only [Except.ok.injEq] at h
    exact ⟨hc, h.symm⟩
  case isFalse => exact absurd h (by simp)

theorem backward_some_ok (g : Graph) (root : ℕ) (s : List ℚ) (rt : Bool) (g' : Graph)
    (h : g.backward root (some s) rt = Except.ok g') :
    g.consumed = false ∧ rgOf g root = true ∧ s.length = (dataOf g root).length ∧
    g.acyclic = true ∧
    g' = { nodes := storeGrads g (backwardAcc g root s), consumed := !rt } := by
  unfold Graph.backward at h
  split at h
  case isTrue => exact absurd h (by simp)
  case isFalse hcons =>
    split at h
    case isTrue => exact absurd h (by simp)
    case isFalse hrg =>
      dsimp only at h
      split at h
      case isTrue hlen =>
        obtain ⟨hc, hg⟩ := backwardRun_ok _ _ _ _ _ h
        exact ⟨by simpa using hcons, by simpa using hrg, hlen, hc, hg⟩
      case isFalse => exact absurd h (by simp)

theorem backward_ok_struct (g : Graph) (root : ℕ) (s? : Option (List ℚ)) (rt : Bool) (g' : Graph)
    (h : g.backward root s? rt = Except.ok g') :
    g.consumed = false ∧ rgOf g root = true ∧ g.acyclic = true ∧ g'.consumed = !rt ∧
    ∃ s : List ℚ, g'.nodes = storeGrads g (backwardAcc g root s) := by
  unfold Graph.backward at h
  split at h
  case isTrue => exact absurd h (by simp)
  case isFalse hcons =>
    split at h
    case isTrue => exact absurd h (by simp)
    case isFalse hrg =>
      cases s? with
      | none =>
        dsimp only at h
        split at h
        case isTrue hlen =>
          obtain ⟨hc, hg⟩ := backwardRun_ok _ _ _ _ _ h
          exact ⟨by simpa using hcons, by simpa using hrg, hc, by rw [hg], [1], by rw [hg]⟩
        case isFalse => exact absurd h (by simp)
      | some s =>
        dsimp only at h
        split at h
        case isTrue hlen =>
          obtain ⟨hc, hg⟩ := backwardRun_ok _ _ _ _ _ h
          exact ⟨by simpa using hcons, by simpa using hrg, hc, by rw [hg], s, by rw [hg]⟩
        case isFalse => exact absurd h (by simp)

theorem length_backward (g : Graph) (root : ℕ) (s? : Option (List ℚ)) (rt : Bool) (g' : Graph)
    (h : g.backward root s? rt = Except.ok g') : g'.nodes.length = g.nodes.length := by
  obtain ⟨-, -, -, -, s, hn⟩ := backward_ok_struct _ _ _ _ _ h
  rw [hn, length_storeGrads]

theorem nodeAt_backward_meta (g : Graph) (root : ℕ) (s? : Option (List ℚ)) (rt : Bool)
    (g' : Graph) (h : g.backward root s? rt = Except.ok g') (j : ℕ) :
    dataOf g' j = dataOf g j ∧ rgOf g' j = rgOf g j ∧ producerOf g' j = producerOf g j := by
  obtain ⟨-, -, -, -, s, hn⟩ := backward_ok_struct _ _ _ _ _ h
  by_cases h1 : j < g.nodes.length
  · have hx := getElem_storeGrads g (backwardAcc g root s) j
    rw [← hn] at hx
    unfold dataOf rgOf producerOf nodeAt
    rw [hx]
    simp only [h1, if_true]
    split <;> exact ⟨rfl, rfl, rfl⟩
  · have hout : nodeAt g' j = defaultNode := by
      apply nodeAt_out
      rw [length_backward _ _ _ _ _ h]
      exact h1
    unfold dataOf rgOf producerOf
    rw [hout, nodeAt_out _ _ h1]
    exact ⟨rfl, rfl, rfl⟩

theorem gradOf_backward_of_rg_false (g : Graph) (root : ℕ) (s? : Option (List ℚ)) (rt : Bool)
    (g' : Graph) (h : g.backward root s? rt = Except.ok g') (j : ℕ) (hj : rgOf g j = false) :
    gradOf g' j = gradOf g j := by
  obtain ⟨-, -, -, -, s, hn⟩ := backward_ok_struct _ _ _ _ _ h
  by_cases h1 : j < g.nodes.length
  · have hx := getElem_storeGrads g (backwardAcc g root s) j
    rw [← hn] at hx
    unfold gradOf nodeAt
    rw [hx]
    simp only [h1, if_true]
    unfold rgOf at hj
    rw [hj]
    simp only [Bool.false_and, Bool.false_eq_true, if_false]
    rfl
  · have hout : nodeAt g' j = defaultNode := by
      apply nodeAt_out
      rw [length_backward _ _ _ _ _ h]
      exact h1
    unfold gradOf
    rw [hout, nodeAt_out _ _ h1]

theorem accumInputs_congr (g₁ g₂ : Graph)
    (hd : ∀ j, dataOf g₁ j = dataOf g₂ j) (hp : ∀ j, producerOf g₁ j = producerOf g₂ j) :
    accumInputs g₁ = accumInputs g₂ := by
  funext acc i
  unfold accumInputs
  rw [hp i]
  have hfd : (fun j => dataOf g₁ j) = fun j => dataOf g₂ j := funext hd
  rw [hfd]

theorem backwardAcc_congr (g₁ g₂ : Graph) (hlen : g₁.nodes.length = g₂.nodes.length)
    (hd : ∀ j, dataOf g₁ j = dataOf g₂ j) (hp : ∀ j, producerOf g₁ j = producerOf g₂ j)
    (root : ℕ) (seed : List ℚ) : backwardAcc g₁ root seed = backwardAcc g₂ root seed := by
  have hmap : g₁.nodes.map (fun nd => zerosLike nd.data)
      = g₂.nodes.map (fun nd => zerosLike nd.data) := by
    apply List.ext_getElem?
    intro i
    rw [List.getElem?_map, List.getElem?_map]
    by_cases hi : i < g₁.nodes.length
    · rw [nodeAt_lt _ _ hi, nodeAt_lt _ _ (hlen ▸ hi)]
      have := hd i
      unfold dataOf at this
      simp [this]
    · rw [List.getElem?_eq_none (by omega), List.getElem?_eq_none (by omega)]
  unfold backwardAcc
  rw [hlen, accumInputs_congr g₁ g₂ hd hp, hmap]

theorem acyclic_congr (g₁ g₂ : Graph) (hlen : g₁.nodes.length = g₂.nodes.length)
    (hp : ∀ j, producerOf g₁ j = producerOf g₂ j) : g₁.acyclic = g₂.acyclic := by
  unfold Graph.acyclic
  rw [hlen]
  congr 1
  funext i
  rw [hp i]

theorem getElem_concat_node (l : List Node) (nd : Node) (i : ℕ) :
    (l ++ [nd])[i]? = if i < l.length then l[i]? else if i = l.length then some nd else none := by
  by_cases h1 : i < l.length
  · rw [List.getElem?_append]
    simp [h1]
  · by_cases h2 : i = l.length
    · subst h2
      rw [List.getElem?_concat_length]
      simp
    · rw [List.getElem?_eq_none (by simp; omega)]
      simp [h1, h2]

theorem nodeAt_freezeAll (g : Graph) (i : ℕ) :
    nodeAt g.freezeAll i =
      if i < g.nodes.length then { nodeAt g i with requires_grad := false }
      else defaultNode := by
  unfold nodeAt Graph.freezeAll
  by_cases h1 : i < g.nodes.length
  · simp only [h1, if_true]
    rw [List.getElem?_map, (nodeAt_lt g i h1 : g.nodes[i]? = _)]
    rfl
  · rw [List.getElem?_eq_none (by simp; omega)]
    simp [h1]

theorem length_freezeAll (g : Graph) : g.freezeAll.nodes.length = g.nodes.length := by
  unfold Graph.freezeAll
  simp

theorem nodeAt_sgdStep (g : Graph) (lr : ℚ) (i : ℕ) :
    nodeAt (g.sgdStep lr) i =
      if i < g.nodes.length then
        (match (nodeAt g i).grad with
         | some gv => { nodeAt g i with
             data := List.zipWith (fun d u => d - lr * u) (nodeAt g i).data gv }
         | none => nodeAt g i)
      else defaultNode := by
  unfold nodeAt Graph.sgdStep
  by_cases h1 : i < g.nodes.length
  · simp only [h1, if_true]
    rw [List.getElem?_map, (nodeAt_lt g i h1 : g.nodes[i]? = _)]
    rfl
  · rw [List.getElem?_eq_none (by simp; omega)]
    simp [h1]

theorem addParams_nodes (g : Graph) (ds : List (List ℚ)) :
    (g.addParams ds).nodes = g.nodes ++ ds.map (fun d =>
      { data := d, grad := none, requires_grad := true, producer := none }) ∧
    (g.addParams ds).consumed = g.consumed := by
  induction ds generalizing g with
  | nil => simp [Graph.addParams]
  | cons d ds ih =>
    unfold Graph.addParams
    simp only [List.foldl_cons]
    obtain ⟨h1, h2⟩ := ih ((g.mkParam d).1)
    unfold Graph.addParams at h1 h2
    refine ⟨?_, ?_⟩
    · rw [h1]
      simp [Graph.mkParam, Graph.leaf]
    · rw [h2]
      rfl

theorem setRequiresGrad_frame (g : Graph) (i : ℕ) (b : Bool) (j : ℕ) :
    producerOf (g.setRequiresGrad i b) j = producerOf g j ∧
    dataOf (g.setRequiresGrad i b) j = dataOf g j ∧
    gradOf (g.setRequiresGrad i b) j = gradOf g j := by
  unfold producerOf dataOf gradOf
  rw [nodeAt_setRequiresGrad]
  by_cases h1 : j < g.nodes.length
  · simp only [h1, if_true]
    by_cases h2 : j = i <;> simp [h2]
  · simp only [h1, if_false]
    rw [nodeAt_out _ _ h1]
    exact ⟨rfl, rfl, rfl⟩

theorem built_wf (g : Graph) (h : Built g) : GraphWF g := by
  induction h with
  | empty =>
    intro i op inputs hp j hj
    unfold producerOf nodeAt Graph.empty at hp
    simp [defaultNode] at hp
  | leaf g d rg hb ih =>
    intro i op inputs hp j hj
    unfold producerOf at hp
    rw [nodeAt_leaf] at hp
    by_cases h1 : i < g.nodes.length
    · rw [if_pos h1] at hp
      exact ih i op inputs hp j hj
    · rw [if_neg h1] at hp
      by_cases h2 : i = g.nodes.length <;> simp [h2, defaultNode] at hp
  | op g g' op₀ inputs₀ idx hb heq ih =>
    intro i op inputs hp j hj
    obtain ⟨hidx, hmem, d, hd, hg, hc⟩ := applyOp_ok _ _ _ _ _ heq
    unfold producerOf nodeAt at hp
    rw [hg, getElem_concat_node] at hp
    by_cases h1 : i < g.nodes.length
    · rw [if_pos h1] at hp
      exact ih i op inputs hp j hj
    · rw [if_neg h1] at hp
      by_cases h2 : i = g.nodes.length
      · rw [if_pos h2] at hp
        simp only [Option.getD_some] at hp
        split at hp
        · simp only [Option.some.injEq, Prod.mk.injEq] at hp
          obtain ⟨-, hin⟩ := hp
          subst hin
          subst h2
          exact hmem j hj
        · exact absurd hp (by simp)
      · rw [if_neg h2] at hp
        simp [defaultNode] at hp
  | setRG g i₀ b hb ih =>
    intro i op inputs hp j hj
    rw [(setRequiresGrad_frame g i₀ b i).1] at hp
    exact ih i op inputs hp j hj
  | bwd g g' root s rt hb heq ih =>
    intro i op inputs hp j hj
    rw [(nodeAt_backward_meta _ _ _ _ _ heq i).2.2] at hp
    exact ih i op inputs hp j hj
  | param g d hb ih =>
    intro i op inputs hp j hj
    unfold Graph.mkParam at hp
    unfold producerOf at hp
    rw [nodeAt_leaf] at hp
    by_cases h1 : i < g.nodes.length
    · rw [if_pos h1] at hp
      exact ih i op inputs hp j hj
    · rw [if_neg h1] at hp
      by_cases h2 : i = g.nodes.length <;> simp [h2, defaultNode] at hp
  | freeze g hb ih =>
    intro i op inputs hp j hj
    unfold producerOf at hp
    rw [nodeAt_freezeAll] at hp
    by_cases h1 : i < g.nodes.length
    · rw [if_pos h1] at hp
      exact ih i op inputs hp j hj
    · rw [if_neg h1] at hp
      simp [defaultNode] at hp
  | params g ds hb ih =>
    intro i op inputs hp j hj
    obtain ⟨hn, -⟩ := addParams_nodes g ds
    unfold producerOf nodeAt at hp
    rw [hn, List.getElem?_append] at hp
    by_cases h1 : i < g.nodes.length
    · rw [if_pos h1] at hp
      exact ih i op inputs hp j hj
    · rw [if_neg h1] at hp
      rw [List.getElem?_map] at hp
      cases hds : ds[i - g.nodes.length]? with
      | none => rw [hds] at hp; simp [defaultNode] at hp
      | some dd => rw [hds] at hp; simp at hp
  | sgd g lr hb ih =>
    intro i op inputs hp j hj
    unfold producerOf at hp
    rw [nodeAt_sgdStep] at hp
    by_cases h1 : i < g.nodes.length
    · rw [if_pos h1] at hp
      have hp' : producerOf g i = some (op, inputs) := by
        unfold producerOf
        cases hgr : (nodeAt g i).grad with
        | none => rw [hgr] at hp; exact hp
        | some gv => rw [hgr] at hp; exact hp
      exact ih i op inputs hp' j hj
    · rw [if_neg h1] at hp
      simp [defaultNode] at hp

theorem wf_acyclic (g : Graph) (h : GraphWF g) : g.acyclic = true := by
  unfold Graph.acyclic
  rw [List.all_eq_true]
  intro i hi
  cases hp : producerOf g i with
  | none => simp [hp]
  | some p =>
    simp only [hp]
    rw [List.all_eq_true]
    intro j hj
    simpa using h i p.1 p.2 (by rw [hp]) j hj

/-! ### Claim theorems -/

/-- Claim C3: a derived Value produced by an operator has `requires_grad = true`
iff at least one of the operator's input Values has `requires_grad = true`,
while a leaf Value takes the caller-specified flag. -/
theorem C3_requires_grad_propagation (g : Graph) (op : Op) (inputs : List ℕ)
    (g' : Graph) (idx : ℕ) (h : g.applyOp op inputs = Except.ok (g', idx)) :
    (rgOf g' idx = true ↔ ∃ i ∈ inputs, rgOf g i = true) ∧
    (∀ (g₂ : Graph) (d : List ℚ) (b : Bool), rgOf (g₂.leaf d b).1 (g₂.leaf d b).2 = b) := by
  constructor
  · obtain ⟨hidx, hall, d, hd, hg, hc⟩ := applyOp_ok _ _ _ _ _ h
    subst hidx
    have hx : rgOf g' g.nodes.length = inputs.any (fun i => rgOf g i) := by
      unfold rgOf nodeAt
      rw [hg, List.getElem?_concat_length]
      rfl
    rw [hx]
    simp [List.any_eq_true]
  · intro g₂ d b
    unfold rgOf
    rw [leaf_snd, nodeAt_leaf]
    simp

theorem C3_witness :
    (Graph.empty.leaf [2] true).1.applyOp (Op.smul 3) [0] =
      Except.ok ({ nodes := [{ data := [2], grad := none, requires_grad := true,
                               producer := none },
                            { data := [6], grad := none, requires_grad := true,
                              producer := some (Op.smul 3, [0]) }],
                   consumed := false }, 1) ∧
    ((rgOf ({ nodes := [{ data := [2], grad := none, requires_grad := true,
                          producer := none },
                        { data := [6], grad := none, requires_grad := true,
                          producer := some (Op.smul 3, [0]) }],
              consumed := false } : Graph) 1 = true ↔
        ∃ i ∈ [0], rgOf (Graph.empty.leaf [2] true).1 i = true) ∧
      (∀ (g₂ : Graph) (d : List ℚ) (b : Bool), rgOf (g₂.leaf d b).1 (g₂.leaf d b).2 = b)) :=
  ⟨by simp [Graph.applyOp, Graph.leaf, Graph.empty, evalOp, dataOf, rgOf, nodeAt, defaultNode]
      norm_num,
   C3_requires_grad_propagation (Graph.empty.leaf [2] true).1 (Op.smul 3) [0] _ 1
     (by simp [Graph.applyOp, Graph.leaf, Graph.empty, evalOp, dataOf, rgOf, nodeAt, defaultNode]
         norm_num)⟩

/-- Claim C4: when every input of an operator application has
`requires_grad = false`, no Operation Record is allocated: the resulting Value
has no producing record (and itself requires no gradients), excluding the
operation from the computation graph. -/
theorem C4_no_record_without_grad (g : Graph) (op : Op) (inputs : List ℕ)
    (g' : Graph) (idx : ℕ) (h : g.applyOp op inputs = Except.ok (g', idx))
    (hall : ∀ i ∈ inputs, rgOf g i = false) :
    producerOf g' idx = none ∧ rgOf g' idx = false := by
  obtain ⟨hidx, hmem, d, hd, hg, hc⟩ := applyOp_ok _ _ _ _ _ h
  subst hidx
  have hany : inputs.any (fun i => rgOf g i) = false := by
    rw [List.any_eq_false]
    intro i hi
    simp [hall i hi]
  constructor
  · unfold producerOf nodeAt
    rw [hg, List.getElem?_concat_length]
    simp [hany]
  · unfold rgOf nodeAt
    rw [hg, List.getElem?_concat_length]
    simpa using hany

theorem C4_witness :
    (Graph.empty.leaf [2] false).1.applyOp (Op.smul 3) [0] =
      Except.ok ({ nodes := [{ data := [2], grad := none, requires_grad := false,
                               producer := none },
                            { data := [6], grad := none, requires_grad := false,
                              producer := none }],
                   consumed := false }, 1) ∧
    (∀ i ∈ [0], rgOf (Graph.empty.leaf [2] false).1 i = false) ∧
    (producerOf ({ nodes := [{ data := [2], grad := none, requires_grad := false,
                               producer := none },
                            { data := [6], grad := none, requires_grad := false,
                              producer := none }],
                   consumed := false } : Graph) 1 = none ∧
     rgOf ({ nodes := [{ data := [2], grad := none, requires_grad := false,
                         producer := none },
                      { data := [6], grad := none, requires_grad := false,
                        producer := none }],
             consumed := false } : Graph) 1 = false) :=
  ⟨by simp [Graph.applyOp, Graph.leaf, Graph.empty, evalOp, dataOf, rgOf, nodeAt, defaultNode]
      norm_num,
   by decide,
   C4_no_record_without_grad (Graph.empty.leaf [2] false).1 (Op.smul 3) [0] _ 1
     (by simp [Graph.applyOp, Graph.leaf, Graph.empty, evalOp, dataOf, rgOf, nodeAt, defaultNode]
         norm_num)
     (by decide)⟩

/-- Claim C5: `backward` uses the default seed `[1]` exactly for a true scalar
root (it then behaves as if the seed `[1]` had been supplied); with a
non-scalar root and no seed it fails with ShapeError; and a supplied seed
whose shape differs from the root's fails with ShapeError. -/
theorem C5_seed_contract (g : Graph) (root : ℕ) (rt : Bool)
    (hc : g.consumed = false) (hrg : rgOf g root = true) :
    ((dataOf g root).length = 1 →
      g.backward root none rt = g.backward root (some [1]) rt) ∧
    ((dataOf g root).length ≠ 1 →
      g.backward root none rt = Except.error EngineError.shapeError) ∧
    (∀ s : List ℚ, s.length ≠ (dataOf g root).length →
      g.backward root (some s) rt = Except.error EngineError.shapeError) := by
  unfold Graph.backward
  simp only [hc, hrg, Bool.not_true, Bool.false_eq_true, if_false]
  refine ⟨fun h1 => ?_, fun h1 => ?_, fun s hs => ?_⟩
  · simp [h1]
  · simp [h1]
  · simp [hs]

theorem C5_witness :
    ((Graph.empty.leaf [2] true).1.consumed = false) ∧
    (rgOf (Graph.empty.leaf [2] true).1 0 = true) ∧
    (((dataOf (Graph.empty.leaf [2] true).1 0).length = 1 →
        (Graph.empty.leaf [2] true).1.backward 0 none false =
          (Graph.empty.leaf [2] true).1.backward 0 (some [1]) false) ∧
     ((dataOf (Graph.empty.leaf [2] true).1 0).length ≠ 1 →
        (Graph.empty.leaf [2] true).1.backward 0 none false =
          Except.error EngineError.shapeError) ∧
     (∀ s : List ℚ, s.length ≠ (dataOf (Graph.empty.leaf [2] true).1 0).length →
        (Graph.empty.leaf [2] true).1.backward 0 (some s) false =
          Except.error EngineError.shapeError)) :=
  ⟨by decide, by decide,
    C5_seed_contract (Graph.empty.leaf [2] true).1 0 false (by decide) (by decide)⟩

/-- Claim C1: for leaf Values `a`, `b` with `requires_grad = true` and
`Q = 3·a³ − b²`, after `Q.backward(seed=[1,1])` the stored gradient of `a` is
`9·a²` elementwise and the stored gradient of `b` is `−2·b` elementwise. -/
theorem C1_polynomial_gradients (a0 a1 b0 b1 : ℚ) :
    ∃ g : Graph, buildQ a0 a1 b0 b1 = Except.ok g ∧
      gradOf g 0 = some [9 * a0 ^ 2, 9 * a1 ^ 2] ∧
      gradOf g 1 = some [-(2 * b0), -(2 * b1)] := by
  refine ⟨_, rfl, ?_, ?_⟩ <;>
    simp [buildQ, Graph.empty, Graph.leaf, Graph.applyOp, Graph.backward, backwardRun,
      Graph.acyclic, backwardAcc, accumInputs, storeGrads, localGrads, evalOp, addVec,
      zerosLike, dataOf, gradOf, rgOf, producerOf, nodeAt, defaultNode, List.range_succ] <;>
    ring_nf <;> simp

/-- Claim C2: gradient contributions are summed, not overwritten: with a leaf
`a` feeding both operands of a product and one addend, `c = a + a*a`, after
backward the leaf's gradient is `1 + 2·a`. -/
theorem C2_summation_law (x : ℚ) :
    ∃ g : Graph, buildDouble x = Except.ok g ∧ gradOf g 0 = some [1 + 2 * x] := by
  refine ⟨_, rfl, ?_⟩
  simp [buildDouble, Graph.empty, Graph.leaf, Graph.applyOp, Graph.backward, backwardRun,
    Graph.acyclic, backwardAcc, accumInputs, storeGrads, localGrads, evalOp, addVec,
    zerosLike, dataOf, gradOf, rgOf, producerOf, nodeAt, defaultNode, List.range_succ]
  ring_nf

/-- Claim C6: a second backward on a graph consumed by a first backward without
retention fails with ReuseError, whatever arguments the second call uses.  With
retention enabled on the first call, a second backward succeeds and adds the
same per-pass contribution (computed from the unchanged data and records) into
the existing stored gradients instead of overwriting them. -/
theorem C6_reuse_and_retention
    (gA : Graph) (rA : ℕ) (sA : Option (List ℚ)) (gA1 : Graph)
    (h1 : gA.backward rA sA false = Except.ok gA1)
    (g : Graph) (root : ℕ) (s : List ℚ) (g1 : Graph)
    (h2 : g.backward root (some s) true = Except.ok g1) :
    (∀ (r : ℕ) (s2 : Option (List ℚ)) (rt : Bool),
        gA1.backward r s2 rt = Except.error EngineError.reuseError) ∧
    ∃ g2 : Graph, g1.backward root (some s) true = Except.ok g2 ∧
      ∀ j, j < g.nodes.length → rgOf g j = true → producerOf g j = none →
        gradOf g2 j = some (addVec ((gradOf g1 j).getD (zerosLike (dataOf g j)))
          (((backwardAcc g root s)[j]?).getD [])) := by
  constructor
  · obtain ⟨-, -, -, hcons1, -⟩ := backward_ok_struct _ _ _ _ _ h1
    intro r s2 rt
    unfold Graph.backward
    simp at hcons1
    simp [hcons1]
  · obtain ⟨hc2, hrg2, hslen, hacy, hg1⟩ := backward_some_ok _ _ _ _ _ h2
    have hlen1 : g1.nodes.length = g.nodes.length := length_backward _ _ _ _ _ h2
    have hd1 : ∀ j, dataOf g1 j = dataOf g j := fun j => (nodeAt_backward_meta _ _ _ _ _ h2 j).1
    have hr1 : ∀ j, rgOf g1 j = rgOf g j := fun j => (nodeAt_backward_meta _ _ _ _ _ h2 j).2.1
    have hp1 : ∀ j, producerOf g1 j = producerOf g j :=
      fun j => (nodeAt_backward_meta _ _ _ _ _ h2 j).2.2
    have hacc : backwardAcc g1 root s = backwardAcc g root s :=
      backwardAcc_congr _ _ hlen1 hd1 hp1 root s
    have hcons : g1.consumed = false := by rw [hg1]; rfl
    have hacy1 : g1.acyclic = true := by rw [acyclic_congr g1 g hlen1 hp1]; exact hacy
    refine ⟨{ nodes := storeGrads g1 (backwardAcc g1 root s), consumed := false }, ?_, ?_⟩
    · unfold Graph.backward
      rw [hcons, hr1 root, hd1 root]
      simp only [hrg2, Bool.not_true, Bool.false_eq_true, if_false]
      rw [if_pos hslen]
      unfold backwardRun
      rw [if_pos hacy1]
      rfl
    · intro j hj hrg hprod
      have hx := getElem_storeGrads g1 (backwardAcc g1 root s) j
      have hjlt : j < g1.nodes.length := by omega
      unfold gradOf nodeAt
      dsimp only
      rw [hx]
      simp only [hjlt, if_true]
      have hrgj : (nodeAt g1 j).requires_grad = true := by
        have := hr1 j
        unfold rgOf at this
        rw [this]
        exact hrg
      have hpj : (nodeAt g1 j).producer = none := by
        have := hp1 j
        unfold producerOf at this
        rw [this]
        exact hprod
      simp only [hrgj, hpj, Option.isNone_none, Bool.and_true, if_true]
      rw [hacc]
      have hdz : zerosLike (nodeAt g1 j).data = zerosLike (dataOf g j) := by
        rw [← hd1 j]
        rfl
      rw [hdz]
      rfl

theorem C6_witness :
    ((Graph.empty.leaf [2] true).1.backward 0 none false =
      Except.ok { nodes := [{ data := [2], grad := some [1], requires_grad := true,
                              producer := none }], consumed := true }) ∧
    ((Graph.empty.leaf [2] true).1.backward 0 (some [1]) true =
      Except.ok { nodes := [{ data := [2], grad := some [1], requires_grad := true,
                              producer := none }], consumed := false }) ∧
    ((∀ (r : ℕ) (s2 : Option (List ℚ)) (rt : Bool),
        ({ nodes := [{ data := [2], grad := some [1], requires_grad := true,
                       producer := none }], consumed := true } : Graph).backward r s2 rt =
          Except.error EngineError.reuseError) ∧
     ∃ g2 : Graph,
       ({ nodes := [{ data := [2], grad := some [1], requires_grad := true,
                      producer := none }], consumed := false } : Graph).backward 0
           (some [1]) true = Except.ok g2 ∧
       ∀ j, j < (Graph.empty.leaf [2] true).1.nodes.length →
         rgOf (Graph.empty.leaf [2] true).1 j = true →
         producerOf (Graph.empty.leaf [2] true).1 j = none →
         gradOf g2 j = some
           (addVec ((gradOf ({ nodes := [{ data := [2], grad := some [1],
                                           requires_grad := true, producer := none }],
                               consumed := false } : Graph) j).getD
               (zerosLike (dataOf (Graph.empty.leaf [2] true).1 j)))
             (((backwardAcc (Graph.empty.leaf [2] true).1 0 [1])[j]?).getD []))) :=
  ⟨by simp [Graph.backward, backwardRun, Graph.acyclic, backwardAcc, accumInputs, storeGrads,
      localGrads, evalOp, addVec, zerosLike, dataOf, gradOf, rgOf, producerOf, nodeAt,
      defaultNode, Graph.leaf, Graph.empty, List.range_succ],
   by simp [Graph.backward, backwardRun, Graph.acyclic, backwardAcc, accumInputs, storeGrads,
      localGrads, evalOp, addVec, zerosLike, dataOf, gradOf, rgOf, producerOf, nodeAt,
      defaultNode, Graph.leaf, Graph.empty, List.range_succ],
   C6_reuse_and_retention (Graph.empty.leaf [2] true).1 0 none _
     (by simp [Graph.backward, backwardRun, Graph.acyclic, backwardAcc, accumInputs, storeGrads,
        localGrads, evalOp, addVec, zerosLike, dataOf, gradOf, rgOf, producerOf, nodeAt,
        defaultNode, Graph.leaf, Graph.empty, List.range_succ])
     (Graph.empty.leaf [2] true).1 0 [1] _
     (by simp [Graph.backward, backwardRun, Graph.acyclic, backwardAcc, accumInputs, storeGrads,
        localGrads, evalOp, addVec, zerosLike, dataOf, gradOf, rgOf, producerOf, nodeAt,
        defaultNode, Graph.leaf, Graph.empty, List.range_succ])⟩

/-- Claim C7: freezing a Value after creation changes no node's data, stored
gradient or producing record (already-built Operation Records are untouched,
only the flag changes); a backward pass never writes a gradient into a Value
whose `requires_grad` is false; and in the freezing scenario — leaf `w` frozen
after creation, unfrozen sibling leaf `u`, product `w·u`, then backward — the
frozen leaf acquires no gradient while the unfrozen sibling still receives its
gradient `∂(w·u)/∂u = w`. -/
theorem C7_freezing (g : Graph) (i : ℕ) (b : Bool)
    (g₂ : Graph) (root : ℕ) (s? : Option (List ℚ)) (rt : Bool) (g₂' : Graph)
    (hbk : g₂.backward root s? rt = Except.ok g₂') (w u : ℚ) :
    (∀ j, producerOf (g.setRequiresGrad i b) j = producerOf g j ∧
          dataOf (g.setRequiresGrad i b) j = dataOf g j ∧
          gradOf (g.setRequiresGrad i b) j = gradOf g j) ∧
    (∀ j, rgOf g₂ j = false → gradOf g₂' j = gradOf g₂ j) ∧
    (∃ gr : Graph, buildFrozen w u = Except.ok gr ∧
      gradOf gr 0 = none ∧ gradOf gr 1 = some [w]) := by
  refine ⟨fun j => setRequiresGrad_frame g i b j,
    fun j hj => gradOf_backward_of_rg_false _ _ _ _ _ hbk j hj, ?_⟩
  refine ⟨_, rfl, ?_, ?_⟩ <;>
    simp [buildFrozen, Graph.empty, Graph.leaf, Graph.setRequiresGrad, Graph.applyOp,
      Graph.backward, backwardRun, Graph.acyclic, backwardAcc, accumInputs, storeGrads,
      localGrads, evalOp, addVec, zerosLike, dataOf, gradOf, rgOf, producerOf, nodeAt,
      defaultNode, List.range_succ] <;>
    ring_nf <;> simp

theorem C7_witness :
    ((Graph.empty.leaf [2] true).1.backward 0 none false =
      Except.ok { nodes := [{ data := [2], grad := some [1], requires_grad := true,
                              producer := none }], consumed := true }) ∧
    ((∀ j, producerOf ((Graph.empty.leaf [2] true).1.setRequiresGrad 0 false) j =
             producerOf (Graph.empty.leaf [2] true).1 j ∧
           dataOf ((Graph.empty.leaf [2] true).1.setRequiresGrad 0 false) j =
             dataOf (Graph.empty.leaf [2] true).1 j ∧
           gradOf ((Graph.empty.leaf [2] true).1.setRequiresGrad 0 false) j =
             gradOf (Graph.empty.leaf [2] true).1 j) ∧
     (∀ j, rgOf (Graph.empty.leaf [2] true).1 j = false →
        gradOf ({ nodes := [{ data := [2], grad := some [1], requires_grad := true,
                              producer := none }], consumed := true } : Graph) j =
          gradOf (Graph.empty.leaf [2] true).1 j) ∧
     (∃ gr : Graph, buildFrozen 2 3 = Except.ok gr ∧
        gradOf gr 0 = none ∧ gradOf gr 1 = some [2])) :=
  ⟨by simp [Graph.backward, backwardRun, Graph.acyclic, backwardAcc, accumInputs, storeGrads,
      localGrads, evalOp, addVec, zerosLike, dataOf, gradOf, rgOf, producerOf, nodeAt,
      defaultNode, Graph.leaf, Graph.empty, List.range_succ],
   C7_freezing (Graph.empty.leaf [2] true).1 0 false (Graph.empty.leaf [2] true).1 0 none
     false _
     (by simp [Graph.backward, backwardRun, Graph.acyclic, backwardAcc, accumInputs,
        storeGrads, localGrads, evalOp, addVec, zerosLike, dataOf, gradOf, rgOf, producerOf,
        nodeAt, defaultNode, Graph.leaf, Graph.empty, List.range_succ])
     2 3⟩

/-- Claim C8: every graph produced by the engine's constructors satisfies the
acyclicity invariant (each Operation Record's inputs precede the record), so
`backward`'s defensive CycleError branch is unreachable on such graphs. -/
theorem C8_cycle_unreachable (g : Graph) (h : Built g) (root : ℕ) (s? : Option (List ℚ))
    (rt : Bool) : g.backward root s? rt ≠ Except.error EngineError.cycleError := by
  have hacy : g.acyclic = true := wf_acyclic g (built_wf g h)
  intro hbad
  unfold Graph.backward at hbad
  split at hbad
  · simp at hbad
  · split at hbad
    · simp at hbad
    · cases s? with
      | none =>
        dsimp only at hbad
        split at hbad
        · unfold backwardRun at hbad
          rw [if_pos hacy] at hbad
          simp at hbad
        · simp at hbad
      | some s =>
        dsimp only at hbad
        split at hbad
        · unfold backwardRun at hbad
          rw [if_pos hacy] at hbad
          simp at hbad
        · simp at hbad

theorem C8_witness :
    (Graph.empty.leaf [1] true).1.backward 0 none false ≠
      Except.error EngineError.cycleError :=
  C8_cycle_unreachable (Graph.empty.leaf [1] true).1
    (Built.leaf Graph.empty [1] true Built.empty) 0 none false

/-- Claim C9: a freshly constructed parameter Value is trainable by default,
so after freezing every existing parameter and constructing the replacement
layer's fresh parameters, a handle is trainable iff it is one of the new
parameters. -/
theorem C9_fresh_params_trainable (g : Graph) (ds : List (List ℚ)) (i : ℕ)
    (hi : i < (g.freezeAll.addParams ds).nodes.length) :
    (rgOf (g.freezeAll.addParams ds) i = true ↔ g.nodes.length ≤ i) := by
  obtain ⟨hn, -⟩ := addParams_nodes g.freezeAll ds
  have hflen : g.freezeAll.nodes.length = g.nodes.length := length_freezeAll g
  have hi' : i < g.nodes.length + ds.length := by
    rw [hn] at hi
    simp only [List.length_append, List.length_map] at hi
    omega
  unfold rgOf nodeAt
  rw [hn, List.getElem?_append]
  by_cases h1 : i < g.nodes.length
  · rw [if_pos (by rw [hflen]; exact h1)]
    have hfa := nodeAt_freezeAll g i
    unfold nodeAt at hfa
    rw [hfa, if_pos h1]
    simp
    omega
  · rw [if_neg (by rw [hflen]; exact h1)]
    have hlt : i - g.freezeAll.nodes.length < ds.length := by
      rw [hflen]
      omega
    rw [List.getElem?_map, List.getElem?_eq_getElem hlt]
    simp
    omega

theorem C9_witness :
    (1 < (((Graph.empty.leaf [7] true).1.freezeAll).addParams [[5]]).nodes.length) ∧
    (rgOf (((Graph.empty.leaf [7] true).1.freezeAll).addParams [[5]]) 1 = true ↔
      (Graph.empty.leaf [7] true).1.nodes.length ≤ 1) :=
  ⟨by decide,
   C9_fresh_params_trainable (Graph.empty.leaf [7] true).1 [[5]] 1 (by decide)⟩

/-- Claim C10: the plain gradient-descent update replaces each parameter's data
by `data − learning_rate·gradient` elementwise, and modifies nothing else: the
stored gradient, the `requires_grad` flag and the producing record of every
node are unchanged. -/
theorem C10_sgd_update (g : Graph) (lr : ℚ) (i : ℕ) :
    (∀ gv : List ℚ, gradOf g i = some gv →
        dataOf (g.sgdStep lr) i = List.zipWith (fun d u => d - lr * u) (dataOf g i) gv) ∧
    gradOf (g.sgdStep lr) i = gradOf g i ∧
    rgOf (g.sgdStep lr) i = rgOf g i ∧
    producerOf (g.sgdStep lr) i = producerOf g i := by
  have hx := nodeAt_sgdStep g lr i
  by_cases h1 : i < g.nodes.length
  · rw [if_pos h1] at hx
    unfold dataOf gradOf rgOf producerOf
    rw [hx]
    refine ⟨?_, ?_, ?_, ?_⟩
    · intro gv hgv
      rw [hgv]
    · cases hgr : (nodeAt g i).grad <;> simp [hgr]
    · cases hgr : (nodeAt g i).grad <;> simp [hgr]
    · cases hgr : (nodeAt g i).grad <;> simp [hgr]
  · rw [if_neg h1] at hx
    unfold dataOf gradOf rgOf producerOf
    rw [hx, nodeAt_out _ _ h1]
    refine ⟨?_, rfl, rfl, rfl⟩
    intro gv hgv
    exact absurd hgv (by simp [defaultNode])

theorem C10_witness :
    ((∀ gv : List ℚ,
        gradOf ({ nodes := [{ data := [2], grad := some [1], requires_grad := true,
                              producer := none }], consumed := false } : Graph) 0 = some gv →
        dataOf (({ nodes := [{ data := [2], grad := some [1], requires_grad := true,
                               producer := none }], consumed := false } : Graph).sgdStep 1) 0 =
          List.zipWith (fun d u => d - 1 * u)
            (dataOf ({ nodes := [{ data := [2], grad := some [1], requires_grad := true,
                                   producer := none }], consumed := false } : Graph) 0) gv) ∧
     gradOf (({ nodes := [{ data := [2], grad := some [1], requires_grad := true,
                            producer := none }], consumed := false } : Graph).sgdStep 1) 0 =
       gradOf ({ nodes := [{ data := [2], grad := some [1], requires_grad := true,
                             producer := none }], consumed := false } : Graph) 0 ∧
     rgOf (({ nodes := [{ data := [2], grad := some [1], requires_grad := true,
                          producer := none }], consumed := false } : Graph).sgdStep 1) 0 =
       rgOf ({ nodes := [{ data := [2], grad := some [1], requires_grad := true,
                           producer := none }], consumed := false } : Graph) 0 ∧
     producerOf (({ nodes := [{ data := [2], grad := some [1], requires_grad := true,
                                producer := none }], consumed := false } : Graph).sgdStep 1) 0 =
       producerOf ({ nodes := [{ data := [2], grad := some [1], requires_grad := true,
                                 producer := none }], consumed := false } : Graph) 0) :=
  C10_sgd_update
    ({ nodes := [{ data := [2], grad := some [1], requires_grad := true,
                   producer := none }], consumed := false } : Graph) 1 0

end Autograd
